import Mathlib

/-!
Verification of the Metadata-Cleaner core against its specification.

This file shallowly embeds the parts of the Python sources that the
specification's claims are about:

* `src/core/result.py` — `CleaningResult`, `BatchCleaningResult` and the
  derived metrics (`size_reduction`, `size_reduction_percent`,
  `metadata_count`, `success_rate`, `add_result`);
* `src/core/cleaner.py` — the folder/batch orchestration
  (`clean_folder`, `clean_files` result aggregation and skip counting);
* `src/core/utils.py` — `create_backup` naming;
* `src/cleaners/office_cleaner.py` — the office (zip-container) cleaner:
  metadata extraction, the Basic-level XML field blanking, the
  `[Content_Types].xml` manifest rewrite, and the repackaging step with
  its failure behaviour;
* `src/cleaners/base_cleaner.py` — the mutable cleaner state shared (by
  aliasing) with returned results.

Machine integers do not overflow in any of the modelled code paths
(Python integers are unbounded), so sizes are `Nat` and differences are
`Int`.  Percentages are modelled over `Rat`; the claims about them only
concern the division-by-zero guards, not rounding.
-/

namespace MetadataCleanerSpec

/-- The three cleaning thoroughness levels of `src/core/enums.py`. -/
inductive CleaningLevel where
  | BASIC
  | DEEP
  | PARANOID
deriving DecidableEq, Repr

/-- Embedding of `CleaningResult` (`src/core/result.py`).  Only the fields
the claims mention are carried; `metadata_removed` is the insertion-ordered
dict, modelled as an association list. -/
structure CleaningResult where
  success : Bool
  original_size : Nat
  cleaned_size : Nat
  metadata_removed : List (String × String)
  errors : List String
  warnings : List String
deriving DecidableEq, Repr

/-- `CleaningResult.size_reduction`: `original_size - cleaned_size`
(Python subtraction, hence possibly negative — modelled in `Int`). -/
def CleaningResult.size_reduction (r : CleaningResult) : Int :=
  (r.original_size : Int) - (r.cleaned_size : Int)

/-- `CleaningResult.size_reduction_percent`: guarded division, `0.0` when
`original_size == 0`. -/
def CleaningResult.size_reduction_percent (r : CleaningResult) : Rat :=
  if r.original_size = 0 then 0
  else ((r.size_reduction : Rat) / (r.original_size : Rat)) * 100

/-- `CleaningResult.metadata_count`: number of removed metadata fields. -/
def CleaningResult.metadata_count (r : CleaningResult) : Nat :=
  r.metadata_removed.length

/-- Embedding of `BatchCleaningResult` (`src/core/result.py`). -/
structure BatchCleaningResult where
  total_files : Nat
  successful : Nat
  failed : Nat
  skipped : Nat
  results : List CleaningResult
  total_size_reduction : Int
deriving DecidableEq, Repr

/-- The freshly constructed `BatchCleaningResult()` with all dataclass
defaults. -/
def BatchCleaningResult.empty : BatchCleaningResult :=
  { total_files := 0, successful := 0, failed := 0, skipped := 0,
    results := [], total_size_reduction := 0 }

/-- `BatchCleaningResult.add_result`: append the result, bump
`total_files`, and bump `successful` plus `total_size_reduction` on
success, else bump `failed`. -/
def BatchCleaningResult.add_result (b : BatchCleaningResult)
    (r : CleaningResult) : BatchCleaningResult :=
  { b with
    results := b.results ++ [r],
    total_files := b.total_files + 1,
    successful := if r.success then b.successful + 1 else b.successful,
    total_size_reduction :=
      if r.success then b.total_size_reduction + r.size_reduction
      else b.total_size_reduction,
    failed := if r.success then b.failed else b.failed + 1 }

/-- `BatchCleaningResult.success_rate`: guarded division, `0.0` when
`total_files == 0`. -/
def BatchCleaningResult.success_rate (b : BatchCleaningResult) : Rat :=
  if b.total_files = 0 then 0
  else ((b.successful : Rat) / (b.total_files : Rat)) * 100

/-- Folding a list of per-file results into a batch aggregate, as the
`as_completed` loops of `clean_folder` / `clean_files` do (one
`add_result` per completed future, in completion order). -/
def addResults (b : BatchCleaningResult) (l : List CleaningResult) :
    BatchCleaningResult :=
  l.foldl BatchCleaningResult.add_result b

lemma addResults_nil (b : BatchCleaningResult) : addResults b [] = b := rfl

lemma addResults_cons (b : BatchCleaningResult) (r : CleaningResult)
    (l : List CleaningResult) :
    addResults b (r :: l) = addResults (b.add_result r) l := rfl

lemma addResults_total_files (b : BatchCleaningResult)
    (l : List CleaningResult) :
    (addResults b l).total_files = b.total_files + l.length := by
  induction l generalizing b with
  | nil => simp [addResults_nil]
  | cons r l ih =>
      rw [addResults_cons, ih]
      simp [BatchCleaningResult.add_result]
      omega

lemma addResults_successful (b : BatchCleaningResult)
    (l : List CleaningResult) :
    (addResults b l).successful = b.successful + l.countP (·.success) := by
  induction l generalizing b with
  | nil => simp [addResults_nil]
  | cons r l ih =>
      rw [addResults_cons, ih, List.countP_cons]
      by_cases h : r.success <;>
        simp [BatchCleaningResult.add_result, h] <;> omega

lemma addResults_failed (b : BatchCleaningResult)
    (l : List CleaningResult) :
    (addResults b l).failed = b.failed + l.countP (fun r => !r.success) := by
  induction l generalizing b with
  | nil => simp [addResults_nil]
  | cons r l ih =>
      rw [addResults_cons, ih, List.countP_cons]
      by_cases h : r.success <;>
        simp [BatchCleaningResult.add_result, h] <;> omega

lemma addResults_tsr (b : BatchCleaningResult) (l : List CleaningResult) :
    (addResults b l).total_size_reduction =
      b.total_size_reduction +
        ((l.filter (·.success)).map CleaningResult.size_reduction).sum := by
  induction l generalizing b with
  | nil => simp [addResults_nil]
  | cons r l ih =>
      rw [addResults_cons, ih, List.filter_cons]
      by_cases h : r.success <;>
        simp [BatchCleaningResult.add_result, h] <;> ring

lemma addResults_results (b : BatchCleaningResult)
    (l : List CleaningResult) :
    (addResults b l).results = b.results ++ l := by
  induction l generalizing b with
  | nil => simp [addResults_nil]
  | cons r l ih =>
      rw [addResults_cons, ih]
      simp [BatchCleaningResult.add_result]

lemma addResults_skipped (b : BatchCleaningResult)
    (l : List CleaningResult) :
    (addResults b l).skipped = b.skipped := by
  induction l generalizing b with
  | nil => simp [addResults_nil]
  | cons r l ih =>
      rw [addResults_cons, ih]
      simp [BatchCleaningResult.add_result]

lemma countP_success_split (l : List CleaningResult) :
    l.countP (·.success) + l.countP (fun r => !r.success) = l.length := by
  induction l with
  | nil => simp
  | cons r l ih =>
      rw [List.countP_cons, List.countP_cons]
      by_cases h : r.success <;> simp [h] <;> omega

/-- C9: after any sequence of `add_result` calls starting from the
initial state, `total_files = successful + failed = length of results`,
and `skipped` is never incremented by `add_result`. -/
theorem batch_invariant_totals (l : List CleaningResult) :
    (addResults BatchCleaningResult.empty l).total_files =
        (addResults BatchCleaningResult.empty l).successful +
          (addResults BatchCleaningResult.empty l).failed ∧
      (addResults BatchCleaningResult.empty l).total_files =
        (addResults BatchCleaningResult.empty l).results.length ∧
      (addResults BatchCleaningResult.empty l).skipped = 0 := by
  refine ⟨?_, ?_, ?_⟩
  · rw [addResults_total_files, addResults_successful, addResults_failed]
    have h := countP_success_split l
    show 0 + l.length = 0 + l.countP (·.success) + (0 + l.countP _)
    omega
  · rw [addResults_total_files, addResults_results]
    simp [BatchCleaningResult.empty]
  · rw [addResults_skipped]
    rfl

/-- C10: the derived metrics are total with guarded division —
`size_reduction_percent` is `0` when `original_size = 0`, and
`success_rate` is `0` when `total_files = 0`. -/
theorem derived_metrics_guarded (r : CleaningResult)
    (b : BatchCleaningResult) :
    (r.original_size = 0 → r.size_reduction_percent = 0) ∧
      (b.total_files = 0 → b.success_rate = 0) := by
  constructor
  · intro h
    simp [CleaningResult.size_reduction_percent, h]
  · intro h
    simp [BatchCleaningResult.success_rate, h]

/-- Witness for C10 at a concrete empty-input result and an empty batch. -/
theorem derived_metrics_witness :
    CleaningResult.size_reduction_percent
        ⟨true, 0, 0, [], [], []⟩ = 0 ∧
      BatchCleaningResult.success_rate BatchCleaningResult.empty = 0 := by
  exact ⟨(derived_metrics_guarded ⟨true, 0, 0, [], [], []⟩
            BatchCleaningResult.empty).1 rfl,
         (derived_metrics_guarded ⟨true, 0, 0, [], [], []⟩
            BatchCleaningResult.empty).2 rfl⟩

/-- C6: the batch aggregate is a commutative fold — two completion
orders of the same multiset of results (a permutation) give the same
`total_files`, `successful`, `failed` and `total_size_reduction`, and
`total_size_reduction` is the sum of `size_reduction` over the
successful results. -/
theorem batch_fold_perm_invariant (l₁ l₂ : List CleaningResult)
    (h : l₁.Perm l₂) :
    (addResults BatchCleaningResult.empty l₁).total_files =
        (addResults BatchCleaningResult.empty l₂).total_files ∧
      (addResults BatchCleaningResult.empty l₁).successful =
        (addResults BatchCleaningResult.empty l₂).successful ∧
      (addResults BatchCleaningResult.empty l₁).failed =
        (addResults BatchCleaningResult.empty l₂).failed ∧
      (addResults BatchCleaningResult.empty l₁).total_size_reduction =
        (addResults BatchCleaningResult.empty l₂).total_size_reduction ∧
      (addResults BatchCleaningResult.empty l₁).total_size_reduction =
        ((l₁.filter (·.success)).map CleaningResult.size_reduction).sum := by
  refine ⟨?_, ?_, ?_, ?_, ?_⟩
  · rw [addResults_total_files, addResults_total_files, h.length_eq]
  · rw [addResults_successful, addResults_successful, h.countP_eq]
  · rw [addResults_failed, addResults_failed, h.countP_eq]
  · rw [addResults_tsr, addResults_tsr,
      ((h.filter (·.success)).map CleaningResult.size_reduction).sum_eq]
  · rw [addResults_tsr]
    simp [BatchCleaningResult.empty]

/-- Witness for C6: two completion orders of the same two concrete
results agree on all aggregate fields, and the cumulative reduction is
the successful results' summed reduction. -/
theorem batch_fold_perm_witness :
    (addResults BatchCleaningResult.empty
          [⟨true, 10, 4, [], [], []⟩, ⟨false, 7, 0, [], [], []⟩]).total_files =
        (addResults BatchCleaningResult.empty
          [⟨false, 7, 0, [], [], []⟩, ⟨true, 10, 4, [], [], []⟩]).total_files ∧
      (addResults BatchCleaningResult.empty
          [⟨true, 10, 4, [], [], []⟩,
            ⟨false, 7, 0, [], [], []⟩]).total_size_reduction = 6 := by
  have h := batch_fold_perm_invariant
    [⟨true, 10, 4, [], [], []⟩, ⟨false, 7, 0, [], [], []⟩]
    [⟨false, 7, 0, [], [], []⟩, ⟨true, 10, 4, [], [], []⟩]
    (List.Perm.swap _ _ _)
  refine ⟨h.1, ?_⟩
  rw [h.2.2.2.2]
  decide

lemma length_filter_eq_countP {α : Type} (p : α → Bool) (l : List α) :
    (l.filter p).length = l.countP p := by
  induction l with
  | nil => rfl
  | cons a l ih =>
      rw [List.filter_cons, List.countP_cons]
      by_cases h : p a <;> simp [h, ih]

/-- One entry found by the folder walk of `clean_folder`
(`src/core/cleaner.py`): whether `is_supported_file` accepts it, and the
`CleaningResult` that `clean_file` returns when the file is dispatched. -/
structure FolderFile where
  supported : Bool
  result : CleaningResult
deriving DecidableEq, Repr

/-- `MetadataCleaner.clean_folder`: dispatch only the supported files,
fold their results with `add_result`, then set
`skipped := len(all_files) - len(supported_files)`.  Unsupported files
are never dispatched, so they never reach `add_result`. -/
def clean_folder (files : List FolderFile) : BatchCleaningResult :=
  let supported := files.filter (·.supported)
  let b := addResults BatchCleaningResult.empty (supported.map (·.result))
  { b with skipped := files.length - supported.length }

/-- The early-return result `clean_file` produces for an unsupported
path (`src/core/cleaner.py` lines 88–95): `success = False` with an
`Unsupported file type` error. -/
def unsupportedResult (sz : Nat) : CleaningResult :=
  { success := false, original_size := sz, cleaned_size := 0,
    metadata_removed := [], errors := ["Unsupported file type"],
    warnings := [] }

/-- `MetadataCleaner.clean_files`: every listed path is dispatched to
`clean_file` (no support filtering), so an unsupported path contributes
a failed result to the aggregate. -/
def clean_files (files : List FolderFile) : BatchCleaningResult :=
  addResults BatchCleaningResult.empty
    (files.map (fun f => if f.supported then f.result else
      unsupportedResult f.result.original_size))

/-- Counterexample to C3: a folder of 5 supported files and 1
unsupported file yields `total_files = 5`, not `6` — `clean_folder`
counts only dispatched files in `total_files`. -/
theorem clean_folder_totals_counterexample :
    (clean_folder
        [⟨true, ⟨true, 1, 1, [], [], []⟩⟩, ⟨true, ⟨true, 1, 1, [], [], []⟩⟩,
         ⟨true, ⟨true, 1, 1, [], [], []⟩⟩, ⟨true, ⟨true, 1, 1, [], [], []⟩⟩,
         ⟨true, ⟨true, 1, 1, [], [], []⟩⟩,
         ⟨false, ⟨false, 1, 0, [], [], []⟩⟩]).total_files = 5 ∧
      (5 : Nat) ≠ 6 := by
  constructor
  · decide
  · decide

/-- C3 as amended: with 5 supported files and 1 unsupported file,
`clean_folder` reports `total_files = 5` (dispatched files only),
`skipped = 1`, and `successful + failed = 5`; and an unsupported path
passed directly to `clean_files` is counted as `failed`, not skipped. -/
theorem clean_folder_totals_amended (files : List FolderFile)
    (h5 : files.countP (·.supported) = 5) (h6 : files.length = 6) :
    (clean_folder files).total_files = 5 ∧
      (clean_folder files).skipped = 1 ∧
      (clean_folder files).successful + (clean_folder files).failed = 5 ∧
      ∀ f : FolderFile, f.supported = false →
        (clean_files [f]).failed = 1 ∧ (clean_files [f]).skipped = 0 := by
  have hlen : (files.filter (·.supported)).length = 5 := by
    rw [length_filter_eq_countP]
    exact h5
  refine ⟨?_, ?_, ?_, ?_⟩
  · show (addResults _ _).total_files = 5
    rw [addResults_total_files, List.length_map, hlen]
    rfl
  · show files.length - (files.filter (·.supported)).length = 1
    rw [hlen, h6]
  · show (addResults _ _).successful + (addResults _ _).failed = 5
    rw [addResults_successful, addResults_failed]
    have h := countP_success_split ((files.filter (·.supported)).map (·.result))
    rw [List.length_map, hlen] at h
    have he1 : BatchCleaningResult.empty.successful = 0 := rfl
    have he2 : BatchCleaningResult.empty.failed = 0 := rfl
    omega
  · intro f hf
    constructor
    · show (addResults _ _).failed = 1
      rw [addResults_failed]
      simp [hf, unsupportedResult, BatchCleaningResult.empty]
    · show (addResults _ _).skipped = 0
      rw [addResults_skipped]
      rfl

/-- Witness for C3's amended theorem at a concrete 6-file folder. -/
theorem clean_folder_totals_witness :
    (clean_folder
        [⟨true, ⟨true, 1, 1, [], [], []⟩⟩, ⟨true, ⟨true, 1, 1, [], [], []⟩⟩,
         ⟨true, ⟨true, 1, 1, [], [], []⟩⟩, ⟨true, ⟨false, 1, 0, [], [], []⟩⟩,
         ⟨true, ⟨true, 1, 1, [], [], []⟩⟩,
         ⟨false, ⟨false, 1, 0, [], [], []⟩⟩]).skipped = 1 := by
  exact (clean_folder_totals_amended _ (by decide) (by decide)).2.1

/-! ## Office (zip-container) cleaner, `src/cleaners/office_cleaner.py`

XML metadata parts are modelled as insertion-ordered association lists of
(element tag, element text); the tag may carry an XML namespace ended by
a closing brace, which `elem.tag.split(...)[-1]` strips.  All tag and
field names occurring in office documents are ASCII, so Python's
`str.lower()` is modelled by mapping `Char.toLower` over the scalar
values. -/

/-- The closing-brace character that terminates an XML namespace inside
an ElementTree tag. -/
def rbrace : Char := Char.ofNat 125

/-- Python `elem.tag.split(...)[-1]`: the suffix of the tag after its
last closing brace (the whole tag when it has none). -/
def localTag (tag : String) : String :=
  ⟨tag.data.foldl (fun acc c => if c = rbrace then [] else acc ++ [c]) []⟩

/-- Python `str.lower()` restricted to scalar-value mapping (exact for
the ASCII tag names office documents use). -/
def lowerString (s : String) : String :=
  ⟨s.data.map Char.toLower⟩

/-- `Char.toLower` never yields a basic-latin capital letter: on input
in `A`–`Z` it adds 32, landing in `a`–`z`; any other input is returned
unchanged and is itself not in `A`–`Z`. -/
lemma toLower_toNat_not_upper (c : Char) :
    ¬(65 ≤ (Char.toLower c).toNat ∧ (Char.toLower c).toNat ≤ 90) := by
  unfold Char.toLower
  by_cases h : c.toNat ≥ 65 ∧ c.toNat ≤ 90
  · rw [if_pos h]
    obtain ⟨h1, h2⟩ := h
    interval_cases hn : c.toNat <;> decide
  · rw [if_neg h]
    exact h

/-- A lowercased string never equals a string containing a capital
letter. -/
lemma lowerString_ne_of_upper_mem (s t : String) (u : Char)
    (hu : 65 ≤ u.toNat ∧ u.toNat ≤ 90) (hm : u ∈ t.data) :
    lowerString s ≠ t := by
  intro he
  have hd : s.data.map Char.toLower = t.data := by
    simpa [lowerString] using congrArg String.data he
  rw [← hd] at hm
  obtain ⟨c, _, hc⟩ := List.mem_map.mp hm
  have hne := toLower_toNat_not_upper c
  rw [hc] at hne
  exact hne hu

lemma lowerString_ne_lastModifiedBy (s : String) :
    lowerString s ≠ "lastModifiedBy" :=
  lowerString_ne_of_upper_mem s _ 'M' (by decide) (by decide)

lemma lowerString_ne_lastPrinted (s : String) :
    lowerString s ≠ "lastPrinted" :=
  lowerString_ne_of_upper_mem s _ 'P' (by decide) (by decide)

/-- The `sensitive_tags` list of `OfficeCleaner._clean_xml_metadata`,
verbatim (note the two mixed-case entries). -/
def sensitive_tags : List String :=
  ["creator", "lastModifiedBy", "created", "modified",
   "company", "manager", "lastPrinted", "revision"]

/-- The body of the `_clean_xml_metadata` loop for one element: blank
the text when the lowercased namespace-stripped tag is in
`sensitive_tags`. -/
def cleanElem (e : String × String) : String × String :=
  if sensitive_tags.contains (lowerString (localTag e.1)) then (e.1, "")
  else e

/-- `OfficeCleaner._clean_xml_metadata`: the per-element blanking
applied over all elements of a metadata part. -/
def clean_xml_metadata (elems : List (String × String)) :
    List (String × String) :=
  elems.map cleanElem

/-- An office document as the cleaner sees it: the three optional
metadata parts under `docProps/` (as XML element lists), the optional
`[Content_Types].xml` manifest (as the list of Override PartNames), and
all remaining parts as (name, bytes). -/
structure OfficeDoc where
  core : Option (List (String × String))
  app : Option (List (String × String))
  custom : Option (List (String × String))
  contentTypes : Option (List String)
  otherParts : List (String × String)
deriving DecidableEq, Repr

/-- The `metadata_parts` PartName list of
`OfficeCleaner._update_content_types`, verbatim. -/
def metadata_parts : List String :=
  ["/docProps/core.xml", "/docProps/app.xml", "/docProps/custom.xml"]

/-- `OfficeCleaner._update_content_types`: drop every Override entry
whose PartName is one of the three metadata parts.  The source runs this
unconditionally, at every cleaning level. -/
def update_content_types (entries : List String) : List String :=
  entries.filter (fun e => !(metadata_parts.contains e))

/-- The per-part branch of `OfficeCleaner.clean` steps 3: a missing part
stays missing; at `BASIC` the part is kept but field-blanked; at
`DEEP`/`PARANOID` the part file is unlinked. -/
def cleanPart (level : CleaningLevel)
    (p : Option (List (String × String))) :
    Option (List (String × String)) :=
  match p with
  | none => none
  | some elems =>
      if level = CleaningLevel.BASIC then some (clean_xml_metadata elems)
      else none

/-- `OfficeCleaner.clean` on the extracted archive (the fault-free data
transformation): metadata parts per `cleanPart`, manifest per
`update_content_types`, all other parts copied unchanged.  (The
`DEEP`/`PARANOID` rsid stripping touches only content-part bytes, never
part names, and no claim depends on those bytes; it is modelled as the
identity on `otherParts`.) -/
def office_clean (level : CleaningLevel) (d : OfficeDoc) : OfficeDoc :=
  { core := cleanPart level d.core,
    app := cleanPart level d.app,
    custom := cleanPart level d.custom,
    contentTypes := d.contentTypes.map update_content_types,
    otherParts := d.otherParts }

/-- Python truthiness of `elem.text and elem.text.strip()`: the text has
at least one non-whitespace character. -/
def hasVisibleText (s : String) : Bool :=
  s.data.any (fun c => !c.isWhitespace)

/-- Python `elem.text[:100]`. -/
def truncate100 (s : String) : String :=
  ⟨s.data.take 100⟩

/-- One dict assignment `metadata[k] = v` on an insertion-ordered
association list. -/
def dictInsert (m : List (String × String)) (k v : String) :
    List (String × String) :=
  if m.any (fun kv => kv.1 == k) then
    m.map (fun kv => if kv.1 == k then (k, v) else kv)
  else m ++ [(k, v)]

/-- The extraction loop of `OfficeCleaner.extract_metadata` over one
part: record `label.tag ↦ text[:100]` for every element with visible
text. -/
def extract_part (label : String) (elems : List (String × String)) :
    List (String × String) :=
  elems.foldl
    (fun m e =>
      if hasVisibleText e.2 then
        dictInsert m (label ++ "." ++ localTag e.1) (truncate100 e.2)
      else m)
    []

/-- `OfficeCleaner.extract_metadata`: `Core.*` entries from
`docProps/core.xml`, `App.*` entries from `docProps/app.xml`, and a
single `Custom ↦ Present` marker when `docProps/custom.xml` exists.
The three key families are disjoint, so the single shared dict of the
source equals this concatenation. -/
def extract_metadata (d : OfficeDoc) : List (String × String) :=
  (match d.core with
   | none => []
   | some elems => extract_part "Core" elems) ++
  (match d.app with
   | none => []
   | some elems => extract_part "App" elems) ++
  (match d.custom with
   | none => []
   | some _ => [("Custom", "Present")])

/-! ## PDF cleaner, `src/cleaners/pdf_cleaner.py` (level handling only) -/

/-- The PDF structures `PDFCleaner.clean` manipulates: the document-info
dictionary, and presence flags for the XMP stream, the trailer `Info`
reference, name-tree JavaScript, page labels and optional-content
properties. -/
structure PdfDoc where
  docinfo : List (String × String)
  xmpMetadata : Bool
  trailerInfo : Bool
  javascript : Bool
  pageLabels : Bool
  ocProperties : Bool
deriving DecidableEq, Repr

/-- `PDFCleaner.clean`'s data transformation: the whole docinfo
dictionary, the XMP stream and the trailer `Info` are removed at every
level; JavaScript, page labels and optional-content properties are
additionally removed at `DEEP`/`PARANOID`. -/
def pdf_clean (level : CleaningLevel) (d : PdfDoc) : PdfDoc :=
  let d1 := { d with docinfo := [], xmpMetadata := false,
                     trailerInfo := false }
  if level = CleaningLevel.BASIC then d1
  else { d1 with javascript := false, pageLabels := false,
                 ocProperties := false }

/-- The field names of the identity and timestamps metadata domains as
the specification's policy table words them for office core properties
(identity: author/creator/company plus the last-editor and manager
fields; timestamps: created/modified/printed). -/
def spec_identity_timestamp_fields : List String :=
  ["author", "creator", "company", "lastModifiedBy", "manager",
   "created", "modified", "lastPrinted"]

/-- Counterexample to C2: at the `BASIC` level the office cleaner blanks
the `revision` field (revision-history domain, not identity or
timestamps), and the PDF cleaner removes the whole document-info
dictionary — including the descriptive `Title` tag — at `BASIC` too. -/
theorem basic_level_strips_nonidentity_field :
    cleanElem ("revision", "5") = ("revision", "") ∧
      spec_identity_timestamp_fields.contains "revision" = false ∧
      (pdf_clean CleaningLevel.BASIC
        { docinfo := [("Title", "Quarterly Report")], xmpMetadata := true,
          trailerInfo := true, javascript := false, pageLabels := false,
          ocProperties := false }).docinfo = [] ∧
      spec_identity_timestamp_fields.contains "Title" = false := by
  refine ⟨by decide, by decide, by decide, by decide⟩

/-- The subset of `sensitive_tags` that a lowercased tag can actually
match: the two mixed-case entries `lastModifiedBy` and `lastPrinted`
are unreachable after `.lower()`. -/
def effective_sensitive_tags : List String :=
  ["creator", "created", "modified", "company", "manager", "revision"]

lemma contains_sensitive_eq_effective (t : String)
    (h1 : t ≠ "lastModifiedBy") (h2 : t ≠ "lastPrinted") :
    sensitive_tags.contains t = effective_sensitive_tags.contains t := by
  simp [sensitive_tags, effective_sensitive_tags,
    List.contains_eq_any_beq, h1, h2]

/-- C2 as amended: at the `BASIC` level the office XML cleaning blanks
exactly the fields whose lowercased tag is `creator`, `created`,
`modified`, `company`, `manager` or `revision` — identity and
timestamps plus the revision-history counter, while `lastModifiedBy`
and `lastPrinted` never match their mixed-case list entries — and every
other field is left untouched. -/
theorem basic_level_effective_strip_set (tag text : String) :
    cleanElem (tag, text) =
      (if effective_sensitive_tags.contains (lowerString (localTag tag))
       then (tag, "") else (tag, text)) := by
  unfold cleanElem
  rw [contains_sensitive_eq_effective _
    (lowerString_ne_lastModifiedBy _) (lowerString_ne_lastPrinted _)]

/-- Counterexample to C5: an office document whose `docProps/app.xml`
carries a (non-sensitive) `Application` field, cleaned successfully at
`BASIC`, still reports one metadata field when the output is cleaned
again at `BASIC` — the second pass has `metadata_count = 1`, not `0`. -/
theorem basic_reclean_nonzero_metadata :
    (extract_metadata (office_clean CleaningLevel.BASIC
        { core := none, app := some [("Application", "LibreOffice")],
          custom := none, contentTypes := none,
          otherParts := [] })).length = 1 ∧
      (1 : Nat) ≠ 0 := by
  refine ⟨by decide, by decide⟩

lemma cleanPart_eq_none (level : CleaningLevel)
    (p : Option (List (String × String)))
    (h : level ≠ CleaningLevel.BASIC) : cleanPart level p = none := by
  cases p with
  | none => rfl
  | some elems => simp [cleanPart, h]

/-- C5 as amended: at `DEEP` and `PARANOID` office cleaning is
idempotent — the cleaned document has no extractable metadata, so a
second pass at the same level reports `metadata_count = 0`.  (At
`BASIC`, kept non-sensitive fields are re-reported; see the
counterexample.) -/
theorem deep_reclean_idempotent (level : CleaningLevel) (d : OfficeDoc)
    (h : level ≠ CleaningLevel.BASIC) :
    extract_metadata (office_clean level d) = [] ∧
      (extract_metadata (office_clean level d)).length = 0 := by
  have hcore : (office_clean level d).core = none := cleanPart_eq_none _ _ h
  have happ : (office_clean level d).app = none := cleanPart_eq_none _ _ h
  have hcustom : (office_clean level d).custom = none :=
    cleanPart_eq_none _ _ h
  constructor
  · rw [extract_metadata, hcore, happ, hcustom]
    rfl
  · rw [extract_metadata, hcore, happ, hcustom]
    rfl

/-- Witness for C5's amended theorem: a `DEEP` clean of a document with
all three metadata parts leaves nothing for a second pass to report. -/
theorem deep_reclean_witness :
    extract_metadata (office_clean CleaningLevel.DEEP
      { core := some [("creator", "Alice")],
        app := some [("Application", "LibreOffice")],
        custom := some [("MyProp", "x")],
        contentTypes := some metadata_parts,
        otherParts := [("/word/document.xml", "body")] }) = [] :=
  (deep_reclean_idempotent CleaningLevel.DEEP _ (by decide)).1

/-- Whether the output archive still holds a part of the given manifest
PartName: the three `docProps` names map to the corresponding metadata
parts, every other name to the untouched remaining parts. -/
def part_exists (d : OfficeDoc) (name : String) : Bool :=
  if name = "/docProps/core.xml" then d.core.isSome
  else if name = "/docProps/app.xml" then d.app.isSome
  else if name = "/docProps/custom.xml" then d.custom.isSome
  else (d.otherParts.map Prod.fst).contains name

/-- Counterexample to C7: at the `BASIC` level the metadata parts are
kept (merely blanked), yet `_update_content_types` still removes their
manifest entries — here the `/docProps/core.xml` Override disappears
although the part still exists in the output. -/
theorem basic_manifest_entry_removed :
    (office_clean CleaningLevel.BASIC
        { core := some [("creator", "Alice")], app := none, custom := none,
          contentTypes := some ["/docProps/core.xml", "/word/document.xml"],
          otherParts := [("/word/document.xml", "body")] }).contentTypes =
        some ["/word/document.xml"] ∧
      (some ["/docProps/core.xml", "/word/document.xml"] :
          Option (List String)) ≠ some ["/word/document.xml"] ∧
      part_exists (office_clean CleaningLevel.BASIC
        { core := some [("creator", "Alice")], app := none, custom := none,
          contentTypes := some ["/docProps/core.xml", "/word/document.xml"],
          otherParts := [("/word/document.xml", "body")] })
        "/docProps/core.xml" = true := by
  refine ⟨by decide, by decide, by decide⟩

/-- C7 as amended: the manifest rewrite removes the three metadata-part
entries at every level (even `BASIC`, where those parts are kept); every
surviving manifest entry that named an existing input part still names
an existing part of the output archive. -/
theorem manifest_entries_reference_existing_parts
    (level : CleaningLevel) (d : OfficeDoc) (es : List String) (e : String)
    (hd : d.contentTypes = some es)
    (he : e ∈ ((office_clean level d).contentTypes.getD []))
    (hex : part_exists d e = true) :
    part_exists (office_clean level d) e = true ∧
      "/docProps/core.xml" ∉ ((office_clean level d).contentTypes.getD []) := by
  have hct : (office_clean level d).contentTypes =
      some (update_content_types es) := by
    rw [office_clean, hd]
    rfl
  rw [hct] at he
  simp only [Option.getD_some] at he
  have hnm : (metadata_parts.contains e) = false := by
    have := List.of_mem_filter he
    simpa using this
  have hne1 : e ≠ "/docProps/core.xml" := by
    intro h
    rw [h] at hnm
    simp [metadata_parts] at hnm
  have hne2 : e ≠ "/docProps/app.xml" := by
    intro h
    rw [h] at hnm
    simp [metadata_parts] at hnm
  have hne3 : e ≠ "/docProps/custom.xml" := by
    intro h
    rw [h] at hnm
    simp [metadata_parts] at hnm
  constructor
  · rw [part_exists, if_neg hne1, if_neg hne2, if_neg hne3]
    rw [part_exists, if_neg hne1, if_neg hne2, if_neg hne3] at hex
    exact hex
  · rw [hct]
    simp only [Option.getD_some]
    intro hmem
    have := List.of_mem_filter hmem
    simp [metadata_parts] at this

/-- Witness for C7's amended theorem at a concrete one-entry manifest. -/
theorem manifest_entries_witness :
    part_exists (office_clean CleaningLevel.BASIC
      { core := none, app := none, custom := none,
        contentTypes := some ["/word/document.xml"],
        otherParts := [("/word/document.xml", "body")] })
      "/word/document.xml" = true :=
  (manifest_entries_reference_existing_parts CleaningLevel.BASIC
    { core := none, app := none, custom := none,
      contentTypes := some ["/word/document.xml"],
      otherParts := [("/word/document.xml", "body")] }
    ["/word/document.xml"] "/word/document.xml"
    rfl (by decide) (by decide)).1

/-! ## Failure behaviour of `OfficeCleaner.clean` (claim C1)

`_create_office_file` opens the caller's `output_path` directly with
`zipfile.ZipFile(output_path, ...)` in write mode — truncating whatever
was there — and then adds the extracted parts one by one.  There is no
scratch-output-then-rename step.  The run model below injects a fault
either before repackaging starts (any exception raised in steps 1–5:
unreadable zip, extraction error, ...) or after `written` parts have
been added to the output archive (an I/O error mid-write).  The outer
`try` of `OfficeCleaner.clean` catches every such exception and returns
`False`. -/

/-- What a file on disk holds: a complete zip archive, a truncated
archive abandoned mid-write (entries written, no central directory), or
opaque non-archive bytes. -/
inductive FileData where
  | archive (d : OfficeDoc)
  | partialArchive (parts : List String)
  | rawFile (s : String)
deriving DecidableEq, Repr

/-- The part names `_create_office_file` walks when repackaging the
extracted directory. -/
def office_part_names (d : OfficeDoc) : List String :=
  (if d.core.isSome then ["docProps/core.xml"] else []) ++
  (if d.app.isSome then ["docProps/app.xml"] else []) ++
  (if d.custom.isSome then ["docProps/custom.xml"] else []) ++
  (if d.contentTypes.isSome then ["[Content_Types].xml"] else []) ++
  d.otherParts.map Prod.fst

/-- Injected failure point for one `OfficeCleaner.clean` run. -/
inductive CleanFault where
  | noFault
  | preRepackFault
  | repackFault (written : Nat)
deriving DecidableEq, Repr

/-- One `OfficeCleaner.clean` run: the returned success flag and the
content of the caller's output path afterwards (`outBefore` is what that
path held before the call — the original document itself when
`output_path == input_path`). -/
def office_clean_run (level : CleaningLevel) (d : OfficeDoc)
    (outBefore : FileData) (fault : CleanFault) : Bool × FileData :=
  match fault with
  | CleanFault.preRepackFault => (false, outBefore)
  | CleanFault.repackFault k =>
      (false, FileData.partialArchive
        ((office_part_names (office_clean level d)).take k))
  | CleanFault.noFault => (true, FileData.archive (office_clean level d))

/-- Counterexample to C1: with `output_path == input_path`, a failure
during repackaging reports `success = False` yet leaves a truncated
archive where the original document was — the original is not
byte-identical to what it was before the operation. -/
theorem office_clean_repack_failure_corrupts_output :
    office_clean_run CleaningLevel.DEEP
        { core := some [("creator", "Alice")], app := none, custom := none,
          contentTypes := some ["/docProps/core.xml"],
          otherParts := [("word/document.xml", "body")] }
        (FileData.archive
          { core := some [("creator", "Alice")], app := none, custom := none,
            contentTypes := some ["/docProps/core.xml"],
            otherParts := [("word/document.xml", "body")] })
        (CleanFault.repackFault 0) =
      (false, FileData.partialArchive []) ∧
      FileData.partialArchive [] ≠
        FileData.archive
          { core := some [("creator", "Alice")], app := none, custom := none,
            contentTypes := some ["/docProps/core.xml"],
            otherParts := [("word/document.xml", "body")] } := by
  refine ⟨by decide, by decide⟩

/-- C1 as amended: a failure in any step before repackaging begins
leaves the caller's output path (and hence the original, when cleaning
in place) untouched and reports failure; only a failure inside the
repackaging step itself can leave a partial archive at the output
path. -/
theorem office_clean_prerepack_failure_preserves_output
    (level : CleaningLevel) (d : OfficeDoc) (outBefore : FileData)
    (fault : CleanFault) (h : fault = CleanFault.preRepackFault) :
    office_clean_run level d outBefore fault = (false, outBefore) := by
  rw [h]
  rfl

/-- Witness for C1's amended theorem: an unreadable input at `DEEP`
leaves the in-place output untouched. -/
theorem office_clean_prerepack_witness :
    office_clean_run CleaningLevel.DEEP
      { core := none, app := none, custom := none, contentTypes := none,
        otherParts := [] }
      (FileData.rawFile "not a zip") CleanFault.preRepackFault =
      (false, FileData.rawFile "not a zip") :=
  office_clean_prerepack_failure_preserves_output CleaningLevel.DEEP
    { core := none, app := none, custom := none, contentTypes := none,
      otherParts := [] }
    (FileData.rawFile "not a zip") CleanFault.preRepackFault rfl

/-! ## Result/cleaner aliasing (claim C4)

`MetadataCleaner.clean_file` builds the returned `CleaningResult` with
`metadata_removed=cleaner.metadata_removed` — the very dict object the
cleaner instance holds.  The next `clean_file` on the same
`MetadataCleaner` dispatches to the same cleaner instance, whose
`reset()` executes `self.metadata_removed.clear()` — an in-place
mutation of the dict the earlier result still references.  (The
`errors`/`warnings` lists alias the same way.)  A small heap with
explicit dict cells makes the aliasing observable. -/

/-- A heap of dict objects; an address is an index into `cells`. -/
structure Heap where
  cells : List (List (String × String))
deriving DecidableEq, Repr

/-- Read the dict object at an address. -/
def Heap.read (h : Heap) (a : Nat) : List (String × String) :=
  h.cells.getD a []

/-- Mutate the dict object at an address in place (`dict.clear()` writes
`[]` through the reference). -/
def Heap.write (h : Heap) (a : Nat) (v : List (String × String)) : Heap :=
  ⟨h.cells.set a v⟩

/-- Allocate a fresh dict object (`self.extract_metadata(...)` builds a
new dict). -/
def Heap.alloc (h : Heap) (v : List (String × String)) : Heap × Nat :=
  (⟨h.cells ++ [v]⟩, h.cells.length)

/-- The cleaner instance: the address of its current
`metadata_removed` dict. -/
structure CleanerObj where
  mdRef : Nat
deriving DecidableEq, Repr

/-- One `clean_file` call on the cleaner: `reset()` clears the current
dict in place, `self.metadata_removed = self.extract_metadata(...)`
rebinds the attribute to a freshly allocated dict holding `extracted`,
and the returned result references that same dict (no copy).  Returns
(heap after, cleaner after, address held by the returned result). -/
def clean_file_call (h : Heap) (c : CleanerObj)
    (extracted : List (String × String)) : Heap × CleanerObj × Nat :=
  let h1 := h.write c.mdRef []
  let ha := h1.alloc extracted
  (ha.1, ⟨ha.2⟩, ha.2)

/-- Counterexample to C4: the first `clean_file` result reports
`Core.creator ↦ Alice`; after a second `clean_file` on the same cleaner
instance, reading through the first result's reference yields the
empty dict — the first result was mutated by the second call. -/
theorem result_mutated_by_second_clean :
    (clean_file_call ⟨[[]]⟩ ⟨0⟩ [("Core.creator", "Alice")]).1.read
        (clean_file_call ⟨[[]]⟩ ⟨0⟩ [("Core.creator", "Alice")]).2.2 =
      [("Core.creator", "Alice")] ∧
      (clean_file_call
          (clean_file_call ⟨[[]]⟩ ⟨0⟩ [("Core.creator", "Alice")]).1
          (clean_file_call ⟨[[]]⟩ ⟨0⟩ [("Core.creator", "Alice")]).2.1
          [("Core.creator", "Bob")]).1.read
        (clean_file_call ⟨[[]]⟩ ⟨0⟩ [("Core.creator", "Alice")]).2.2 =
      [] ∧
      ([("Core.creator", "Alice")] : List (String × String)) ≠ [] := by
  refine ⟨by decide, by decide, by decide⟩

/-- C4 as amended: for any two sequential `clean_file` calls dispatched
to the same cleaner instance, the first result initially exposes its
extraction, but after the second call it reads as empty (its dict was
cleared in place by `reset()`), while the second result exposes its own
extraction. -/
theorem result_aliasing_amended (h0 : Heap) (c0 : CleanerObj)
    (m1 m2 : List (String × String)) :
    (clean_file_call h0 c0 m1).1.read (clean_file_call h0 c0 m1).2.2 = m1 ∧
      (clean_file_call (clean_file_call h0 c0 m1).1
          (clean_file_call h0 c0 m1).2.1 m2).1.read
        (clean_file_call h0 c0 m1).2.2 = [] ∧
      (clean_file_call (clean_file_call h0 c0 m1).1
          (clean_file_call h0 c0 m1).2.1 m2).1.read
        (clean_file_call (clean_file_call h0 c0 m1).1
          (clean_file_call h0 c0 m1).2.1 m2).2.2 = m2 := by
  refine ⟨?_, ?_, ?_⟩
  · show ((h0.cells.set c0.mdRef []) ++ [m1]).getD
      (h0.cells.set c0.mdRef []).length [] = m1
    simp [List.getD, List.get?_eq_getElem?, List.getElem?_append_right]
  · show ((((h0.cells.set c0.mdRef []) ++ [m1]).set
        (h0.cells.set c0.mdRef []).length []) ++ [m2]).getD
      (h0.cells.set c0.mdRef []).length [] = []
    simp [List.getD, List.get?_eq_getElem?, List.getElem?_append,
      List.getElem?_set_self, List.getElem_append_right]
  · show ((((h0.cells.set c0.mdRef []) ++ [m1]).set
        (h0.cells.set c0.mdRef []).length []) ++ [m2]).getD
      ((((h0.cells.set c0.mdRef []) ++ [m1]).set
        (h0.cells.set c0.mdRef []).length [])).length [] = m2
    simp [List.getD, List.get?_eq_getElem?, List.getElem?_append,
      List.getElem?_set_self, List.getElem_append_right]

/-! ## Backup naming, `create_backup` in `src/core/utils.py` (claim C8) -/

/-- The backup file name
`f-string stem _ timestamp suffix` built by `create_backup`, where
`timestamp = datetime.now().strftime(...)` has one-second resolution
and the name depends on nothing else (in particular not on the file's
content or on any per-invocation counter). -/
def backup_name (stem timestamp sfx : String) : String :=
  stem ++ "_" ++ timestamp ++ sfx

/-- C8 evaluated at the failing input: two `create_backup` invocations
for the same file within the same wall-clock second receive the same
timestamp string and therefore produce the same backup path — the
second `shutil.copy2` overwrites the first backup.  The name is a
function of (stem, timestamp, suffix) alone. -/
theorem backup_name_same_second_collision :
    backup_name "report" "20251012_101010" ".docx" =
        "report_20251012_101010.docx" ∧
      ∀ ts : String, backup_name "report" ts ".docx" =
        String.append (String.append "report_" ts) ".docx" := by
  constructor
  · decide
  · intro ts
    show "report" ++ "_" ++ ts ++ ".docx" = "report_" ++ ts ++ ".docx"
    have hlit : ("report" ++ "_" : String) = "report_" := by decide
    rw [hlit]

end MetadataCleanerSpec
